import Mathlib

/-!
Verification of the Modo-RSS-APP ingestion-and-retrieval core.

This file gives a shallow Lean embedding of the pure/algorithmic parts of the
backend (chunking, country tagging, RSS parsing, article upsert, confidence
grading, fetch-retry control flow, content extraction post-processing, and the
per-article chunk-replacement transaction of the pipeline), and proves or
refutes the documented properties of those parts.

Python strings are embedded as `List Char`, or as Lean `String` where only
whole-string operations occur.  Machine-external libraries (feedparser,
readability/BeautifulSoup, langdetect, httpx, hashlib, the database driver)
are modelled at their call boundary: their observable results are inputs of
the embedded functions, as documented on each definition.
-/

/-! ## Python string primitives -/

/-- Python `str.strip()` whitespace set: space, tab, newline, carriage return,
vertical tab, form feed. -/
def pyIsSpace (c : Char) : Bool :=
  c = ' ' || c = '\t' || c = '\n' || c = '\r' || c = '\x0b' || c = '\x0c'

/-- Python `str.strip()` on a character list. -/
def pyStrip (s : List Char) : List Char :=
  ((s.dropWhile pyIsSpace).reverse.dropWhile pyIsSpace).reverse

/-- Python `str.strip()` on a `String`. -/
def pyStripS (s : String) : String :=
  String.mk (pyStrip s.toList)

/-- Python `str.lower()` (the inputs of this code are ASCII). -/
def pyLower (s : List Char) : List Char :=
  s.map Char.toLower

/-- Python `str.lower()` on a `String`. -/
def pyLowerS (s : String) : String :=
  String.mk (pyLower s.toList)

/-- Python slice `s[a:b]` for `0 ≤ a ≤ b` (the only uses below). -/
def pySlice (s : List Char) (a b : Nat) : List Char :=
  (s.take b).drop a

/-- Python `in` on strings: substring containment. -/
def pyInL (needle hay : List Char) : Bool :=
  (List.range (hay.length + 1)).any (fun i => (hay.drop i).take needle.length == needle)

/-- Python `in` on `String`s. -/
def pyInS (needle hay : String) : Bool :=
  pyInL needle.toList hay.toList

/-- Helper for `pyRfind1`: highest index at which `c` occurs, else `-1`. -/
def pyRfind1Aux (c : Char) : List Char → Nat → Int → Int
  | [], _, best => best
  | a :: rest, i, best =>
    pyRfind1Aux c rest (i + 1) (if a = c then (i : Int) else best)

/-- Python `s.rfind(c)` for a one-character needle: highest index of `c` in
`s`, or `-1` when absent. -/
def pyRfind1 (s : List Char) (c : Char) : Int :=
  pyRfind1Aux c s 0 (-1)

/-- Helper for `pyRfind2From`. -/
def pyRfind2Aux (c₁ c₂ : Char) (start : Nat) : List Char → Nat → Int → Int
  | [], _, best => best
  | [_], _, best => best
  | a :: b :: rest, i, best =>
    pyRfind2Aux c₁ c₂ start (b :: rest) (i + 1)
      (if start ≤ i ∧ a = c₁ ∧ b = c₂ then (i : Int) else best)

/-- Python `s.rfind(c₁c₂, start)` for a two-character needle: highest index
`i ≥ start` with `s[i] = c₁` and `s[i+1] = c₂`, or `-1` when absent. -/
def pyRfind2From (s : List Char) (c₁ c₂ : Char) (start : Nat) : Int :=
  pyRfind2Aux c₁ c₂ start s 0 (-1)

/-! ## Chunker (`app/services/rag/chunking_service.py`)

`ChunkingService` is instantiated with its constructor defaults everywhere in
the pipeline (`min_chunk_size=800`, `max_chunk_size=1200`, `overlap=100`);
those defaults are embedded as constants. -/

/-- `ChunkingService.min_chunk_size` default. -/
def min_chunk_size : Nat := 800

/-- `ChunkingService.max_chunk_size` default. -/
def max_chunk_size : Nat := 1200

/-- `ChunkingService.overlap` default. -/
def chunk_overlap : Nat := 100

/-- `TextChunk` dataclass of `chunking_service.py`. -/
structure TextChunk where
  text : List Char
  chunk_index : Nat
  start_pos : Nat
  end_pos : Nat
deriving Repr, DecidableEq

/-- One iteration's break-point computation, `chunk_text` lines 74-99: the
window end starts at `min(start + max, len)`; if that is not the end of the
text, prefer the latest sentence break (`". "`, `"! "`, `"? "`) in the last
200 characters of the window past `min_chunk_size`, else the latest space
past `min_chunk_size`, else the raw window end.  Python's
`max(0, len - 200)` is `Nat` truncated subtraction. -/
def chunkEndPos (text : List Char) (start_pos : Nat) : Nat :=
  let end₀ := min (start_pos + max_chunk_size) text.length
  if end₀ < text.length then
    let ct := pySlice text start_pos end₀
    let search_start := ct.length - 200
    let last_sentence_end :=
      max (max (pyRfind2From ct '.' ' ' search_start) (pyRfind2From ct '!' ' ' search_start))
        (pyRfind2From ct '?' ' ' search_start)
    if last_sentence_end ≠ -1 ∧ (min_chunk_size : Int) < last_sentence_end then
      start_pos + last_sentence_end.toNat + 1
    else
      let last_space := pyRfind1 ct ' '
      if (min_chunk_size : Int) < last_space then start_pos + last_space.toNat else end₀
  else end₀

/-- The `while start_pos < len(text)` loop of `chunk_text` (lines 73-123),
fuel-driven; `chunk_text` supplies fuel `text.length + 1`, far above the
iteration count (each continuing iteration advances the cursor by at least
`min_chunk_size - overlap + 1` characters).  The forward-progress guard
mirrors Python line 121, whose condition parses as
`(start_pos <= chunks[-1].start_pos) if chunks else 0`. -/
def chunkLoop (text : List Char) : Nat → Nat → Nat → List TextChunk → List TextChunk
  | 0, _, _, chunks => chunks
  | fuel + 1, start_pos, chunk_index, chunks =>
    if start_pos < text.length then
      let end_pos := chunkEndPos text start_pos
      let ctext := pyStrip (pySlice text start_pos end_pos)
      let chunks' :=
        if ctext ≠ [] then chunks ++ [⟨ctext, chunk_index, start_pos, end_pos⟩] else chunks
      let chunk_index' := if ctext ≠ [] then chunk_index + 1 else chunk_index
      if text.length ≤ end_pos then chunks'
      else
        let s₀ := end_pos - chunk_overlap
        let progressBad : Bool :=
          match chunks'.getLast? with
          | some c => decide (s₀ ≤ c.start_pos)
          | none => false
        chunkLoop text fuel (if progressBad then end_pos else s₀) chunk_index' chunks'
    else chunks

/-- `ChunkingService.chunk_text` (lines 41-124): empty or whitespace-only
text yields no chunks; text of length at most `max_chunk_size` yields one
chunk holding the text unchanged; longer text is carved by `chunkLoop`. -/
def chunk_text (text : List Char) : List TextChunk :=
  if text = [] ∨ (pyStrip text).length = 0 then []
  else if text.length ≤ max_chunk_size then [⟨text, 0, 0, text.length⟩]
  else chunkLoop text (text.length + 1) 0 0 []

/-- `ChunkingService.chunk_article` as called by the pipeline (no metadata
argument): each chunk becomes its `(text, chunk_index)` pair. -/
def chunk_article (content_text : List Char) : List (List Char × Nat) :=
  (chunk_text content_text).map (fun c => (c.text, c.chunk_index))

/-- C1, counterexample.  The single-space string is non-empty and far below
`max_chunk_size`, yet `chunk_text` returns no chunk at all (the guard at
line 57 drops any text whose `strip()` is empty), refuting "for every
non-empty text with `len ≤ 1200`, exactly one chunk equal to the input". -/
theorem c1_whitespace_counterexample :
    ([' '] : List Char) ≠ [] ∧ ([' '] : List Char).length ≤ 1200 ∧ chunk_text [' '] = [] := by
  refine ⟨by decide, by decide, ?_⟩
  rfl

/-- C1, amended.  For every text of length at most 1200 that strips to
something non-empty, `chunk_text` returns exactly one chunk whose text is
the input unchanged (not trimmed). -/
theorem c1_single_chunk (text : List Char) (hs : pyStrip text ≠ [])
    (hlen : text.length ≤ 1200) :
    chunk_text text = [⟨text, 0, 0, text.length⟩] := by
  have htext : text ≠ [] := by
    intro h
    exact hs (by simp [h, pyStrip])
  have hcond : ¬(text = [] ∨ (pyStrip text).length = 0) := by
    rintro (h | h)
    · exact htext h
    · exact hs (List.length_eq_zero.mp h)
  have hlen' : text.length ≤ max_chunk_size := hlen
  rw [chunk_text, if_neg hcond, if_pos hlen']

/-- Witness for `c1_single_chunk` at the concrete input `"ab"`. -/
theorem c1_single_chunk_witness :
    pyStrip ['a', 'b'] ≠ [] ∧ ['a', 'b'].length ≤ 1200 ∧
      chunk_text ['a', 'b'] = [⟨['a', 'b'], 0, 0, 2⟩] :=
  ⟨by decide, by decide, c1_single_chunk ['a', 'b'] (by decide) (by decide)⟩

/-! ## Country tagger (`app/services/nlp/country_tagger.py`, `country_data.py`)

The regex `\b\w+\b|[.,!?;]` of `CountryTagger._tokenize` is embedded as a
single left-to-right scan: maximal runs of word characters are tokens, and
each of `. , ! ? ;` is a one-character token; all other characters
separate. -/

/-- Python `\w` on the ASCII inputs of this code. -/
def isWordChar (c : Char) : Bool :=
  c.isAlphanum || c = '_'

/-- The punctuation alternatives `[.,!?;]` of the tokenizer regex. -/
def isPunctTok (c : Char) : Bool :=
  c = '.' || c = ',' || c = '!' || c = '?' || c = ';'

/-- `re.findall(r'\b\w+\b|[.,!?;]', text)`: `acc` holds the reversed current
word run. -/
def reFindTokensAux : List Char → List Char → List (List Char)
  | [], acc => if acc = [] then [] else [acc.reverse]
  | c :: rest, acc =>
    if isWordChar c then reFindTokensAux rest (c :: acc)
    else
      let pre := if acc = [] then ([] : List (List Char)) else [acc.reverse]
      if isPunctTok c then pre ++ [c] :: reFindTokensAux rest []
      else pre ++ reFindTokensAux rest []

/-- The word list of `CountryTagger._tokenize` after lowercasing. -/
def reFindTokens (s : List Char) : List (List Char) :=
  reFindTokensAux s []

/-- Words joined by single spaces, as the tokenizer's f-strings do. -/
def joinSpace (ws : List (List Char)) : List Char :=
  (ws.intersperse [' ']).flatten

/-- The n-gram phrases of `_tokenize`: `range(len(words) - (n-1))` windows. -/
def ngrams (ws : List (List Char)) (n : Nat) : List (List Char) :=
  (List.range (ws.length + 1 - n)).map (fun i => joinSpace ((ws.drop i).take n))

/-- `CountryTagger._tokenize`: empty text has no tokens; otherwise the
lowercased words followed by their 2-, 3-, 4- and 5-grams. -/
def tagTokenize (text : String) : List (List Char) :=
  if text = "" then []
  else
    let ws := reFindTokens (pyLower text.toList)
    ws ++ ngrams ws 2 ++ ngrams ws 3 ++ ngrams ws 4 ++ ngrams ws 5

/-- Python `len(token.split())`: the number of maximal non-whitespace runs. -/
def pySplitLen (s : List Char) : Nat :=
  ((s.splitOnP pyIsSpace).filter (· ≠ [])).length

/-- `COUNTRY_KEYWORDS` of `country_data.py`, in source order: ISO-3166 alpha-2
code to keyword list (names, demonyms, cities, abbreviations). -/
def COUNTRY_KEYWORDS : List (String × List String) := [
  ("US", ["united states", "usa", "u.s.", "u.s.a", "america", "american", "americans",
          "washington dc", "new york", "california", "texas", "florida"]),
  ("GB", ["united kingdom", "uk", "u.k.", "britain", "great britain", "british",
          "england", "english", "scotland", "scottish", "wales", "welsh",
          "northern ireland", "london", "manchester", "birmingham"]),
  ("DE", ["germany", "german", "germans", "deutschland",
          "berlin", "munich", "hamburg", "frankfurt"]),
  ("FR", ["france", "french", "paris", "lyon", "marseille"]),
  ("CN", ["china", "chinese", "beijing", "shanghai", "guangzhou", "shenzhen",
          "prc", "people's republic of china"]),
  ("IN", ["india", "indian", "indians", "new delhi", "delhi", "mumbai",
          "bangalore", "bengaluru", "hyderabad"]),
  ("JP", ["japan", "japanese", "tokyo", "osaka", "kyoto"]),
  ("KR", ["south korea", "korea", "korean", "koreans", "seoul", "busan",
          "republic of korea", "rok"]),
  ("KP", ["north korea", "dprk", "pyongyang", "democratic people's republic of korea"]),
  ("AU", ["australia", "australian", "australians", "sydney", "melbourne",
          "brisbane", "perth", "canberra"]),
  ("CA", ["canada", "canadian", "canadians", "toronto", "montreal", "vancouver",
          "ottawa", "calgary"]),
  ("ES", ["spain", "spanish", "madrid", "barcelona", "seville"]),
  ("IT", ["italy", "italian", "italians", "rome", "milan", "naples",
          "florence", "venice"]),
  ("NL", ["netherlands", "dutch", "holland", "amsterdam", "rotterdam",
          "the hague"]),
  ("BE", ["belgium", "belgian", "belgians", "brussels", "antwerp"]),
  ("PL", ["poland", "polish", "poles", "warsaw", "krakow", "gdansk"]),
  ("SE", ["sweden", "swedish", "swedes", "stockholm", "gothenburg"]),
  ("NO", ["norway", "norwegian", "norwegians", "oslo", "bergen"]),
  ("DK", ["denmark", "danish", "danes", "copenhagen"]),
  ("BR", ["brazil", "brazilian", "brazilians", "brasilia", "sao paulo",
          "rio de janeiro", "rio"]),
  ("MX", ["mexico", "mexican", "mexicans", "mexico city", "guadalajara"]),
  ("AR", ["argentina", "argentinian", "argentinians", "buenos aires"]),
  ("CL", ["chile", "chilean", "chileans", "santiago"]),
  ("ZA", ["south africa", "south african", "south africans",
          "johannesburg", "cape town", "pretoria", "durban"]),
  ("SA", ["saudi arabia", "saudi", "saudis", "riyadh", "jeddah"]),
  ("AE", ["united arab emirates", "uae", "u.a.e", "emirates", "dubai", "abu dhabi"]),
  ("IL", ["israel", "israeli", "israelis", "jerusalem", "tel aviv"]),
  ("TR", ["turkey", "turkish", "turks", "ankara", "istanbul"]),
  ("RU", ["russia", "russian", "russians", "moscow", "st petersburg",
          "petersburg", "soviet", "ussr"]),
  ("UA", ["ukraine", "ukrainian", "ukrainians", "kyiv", "kiev", "odessa"]),
  ("EG", ["egypt", "egyptian", "egyptians", "cairo"]),
  ("NG", ["nigeria", "nigerian", "nigerians", "lagos", "abuja"]),
  ("KE", ["kenya", "kenyan", "kenyans", "nairobi"]),
  ("ID", ["indonesia", "indonesian", "indonesians", "jakarta"]),
  ("MY", ["malaysia", "malaysian", "malaysians", "kuala lumpur"]),
  ("SG", ["singapore", "singaporean", "singaporeans"]),
  ("VN", ["vietnam", "vietnamese", "hanoi", "ho chi minh"]),
  ("TH", ["thailand", "thai", "bangkok"]),
  ("PH", ["philippines", "filipino", "filipinos", "manila"]),
  ("NZ", ["new zealand", "new zealander", "new zealanders", "kiwi", "kiwis",
          "wellington", "auckland"]),
  ("IE", ["ireland", "irish", "dublin"]),
  ("PT", ["portugal", "portuguese", "lisbon", "porto"]),
  ("GR", ["greece", "greek", "greeks", "athens"]),
  ("AT", ["austria", "austrian", "austrians", "vienna"]),
  ("CH", ["switzerland", "swiss", "zurich", "geneva", "bern"]),
  ("FI", ["finland", "finnish", "finns", "helsinki"]),
  ("CZ", ["czech republic", "czech", "czechs", "czechia", "prague"]),
  ("HU", ["hungary", "hungarian", "hungarians", "budapest"]),
  ("RO", ["romania", "romanian", "romanians", "bucharest"])]

/-- `REGION_KEYWORDS` of `country_data.py`: non-country regions. -/
def REGION_KEYWORDS : List (String × List String) := [
  ("EU", ["european union", "eu", "e.u.", "brussels", "european commission",
          "european parliament", "eurozone"])]

/-- `CountryTagger._build_keyword_index` for countries: the Python dict
`keyword.lower() ↦ code` written as the flattened binding list; a later
binding overwrites an earlier one, so lookups scan the reversed list. -/
def keywordToCountryList : List (String × String) :=
  COUNTRY_KEYWORDS.foldl
    (fun acc p => acc ++ p.2.map (fun kw => (pyLowerS kw, p.1))) []

/-- `CountryTagger._build_keyword_index` for regions. -/
def keywordToRegionList : List (String × String) :=
  REGION_KEYWORDS.foldl
    (fun acc p => acc ++ p.2.map (fun kw => (pyLowerS kw, p.1))) []

/-- Python dict lookup over a binding list: the last binding of the key. -/
def dictFind (d : List (String × String)) (k : String) : Option String :=
  (d.reverse.find? (fun p => p.1 == k)).map (·.2)

/-! A Python `collections.Counter` is embedded as an association list in key
insertion order; `most_common(n)` is a stable sort by count descending
followed by `take n` (the documented behaviour of `Counter.most_common`:
counts descending, ties in insertion order). -/

/-- `counter[k] += w`: increment in place, or append a new key. -/
def counterAdd (c : List (String × Int)) (k : String) (w : Int) : List (String × Int) :=
  if c.any (fun p => p.1 == k) then
    c.map (fun p => if p.1 == k then (p.1, p.2 + w) else p)
  else c ++ [(k, w)]

/-- `counter[k]` (0 for an absent key, as `Counter` returns). -/
def counterGet (c : List (String × Int)) (k : String) : Int :=
  match c.find? (fun p => p.1 == k) with
  | some p => p.2
  | none => 0

/-- Stable insertion into a count-descending list: the new pair goes before
the first entry whose count is not larger, so earlier entries win ties. -/
def insertDesc (p : String × Int) : List (String × Int) → List (String × Int)
  | [] => [p]
  | q :: rest => if p.2 < q.2 then q :: insertDesc p rest else p :: q :: rest

/-- Stable sort by count descending (`sorted(..., reverse=True)` on counts,
as `Counter.most_common` performs). -/
def sortCountDesc : List (String × Int) → List (String × Int)
  | [] => []
  | p :: rest => insertDesc p (sortCountDesc rest)

/-- `Counter.most_common(n)`. -/
def mostCommon (n : Nat) (c : List (String × Int)) : List (String × Int) :=
  (sortCountDesc c).take n

/-- The region-metadata dict: `regions_found[region].append(token)` with
first-seen key order. -/
def regionAdd (rs : List (String × List String)) (region tok : String) :
    List (String × List String) :=
  if rs.any (fun p => p.1 == region) then
    rs.map (fun p => if p.1 == region then (p.1, p.2 ++ [tok]) else p)
  else rs ++ [(region, [tok])]

/-- `CountryTagger._score_countries` (lines 113-153): each token matching a
country keyword adds `(3 if in title tokens else 1) * word-count-of-token`
to that country's counter; region keywords only collect metadata. -/
def scoreCountries (tokens titleTokens : List (List Char)) :
    List (String × Int) × List (String × List String) :=
  let country_scores := tokens.foldl
    (fun cs token =>
      match dictFind keywordToCountryList (String.mk token) with
      | some code =>
        let weight : Int := (if titleTokens.contains token then 3 else 1) * pySplitLen token
        counterAdd cs code weight
      | none => cs) []
  let regions_found := tokens.foldl
    (fun rs token =>
      match dictFind keywordToRegionList (String.mk token) with
      | some region => regionAdd rs region (String.mk token)
      | none => rs) []
  (country_scores, regions_found)

/-- The US-state indicator list of `_handle_ambiguous_terms`. -/
def usIndicators : List String := ["atlanta", "savannah", "peach state", "georgian state"]

/-- `CountryTagger._handle_ambiguous_terms` (lines 86-111): when `GE` has a
counter entry and a US-state indicator occurs in the lowercased text, the GE
score is set to 0. -/
def handleAmbiguousTerms (text : String) (cs : List (String × Int)) : List (String × Int) :=
  if cs.any (fun p => p.1 == "GE") then
    if usIndicators.any (fun ind => pyInS ind (pyLowerS text)) then
      cs.map (fun p => if p.1 == "GE" then (p.1, 0) else p)
    else cs
  else cs

/-- `tag_article` lines 172-175: the full text is the title, extended by a
space and the content when content is given and truthy (`if content:` is
false for both `None` and the empty string). -/
def tagFullText (title : String) (content : Option String) : String :=
  match content with
  | some c => if c = "" then title else title ++ " " ++ c
  | none => title

/-- `CountryTagger.tag_article` (lines 155-201) with the `max_countries = 3`
default used by the pipeline: the top-3 positive-score codes from the
combined title-and-content text, paired with the `regions_found` mapping
(whose key list is what `tag_article` places under `metadata["regions"]`). -/
def tag_article (title : String) (content : Option String) :
    List String × List (String × List String) :=
  let full_text := tagFullText title content
  if pyStrip full_text.toList = [] then ([], [])
  else
    let title_tokens := tagTokenize title
    let full_tokens := tagTokenize full_text
    let sr := scoreCountries full_tokens title_tokens
    let country_scores := handleAmbiguousTerms full_text sr.1
    (((mostCommon 3 country_scores).filter (fun p => 0 < p.2)).map (·.1), sr.2)

/-- The post-disambiguation counter that `tag_article` ranks: exposed so the
theorems below can speak about a country's score. -/
def tagScores (title : String) (content : Option String) : List (String × Int) :=
  let full_text := tagFullText title content
  handleAmbiguousTerms full_text (scoreCountries (tagTokenize full_text) (tagTokenize title)).1

/-! ### Counter lemmas for the tagger theorems -/

/-- A counter's keys are pairwise distinct (true of every Python dict). -/
def KeysNodup (c : List (String × Int)) : Prop :=
  (c.map Prod.fst).Nodup

theorem keysNodup_counterAdd {c : List (String × Int)} (h : KeysNodup c)
    (k : String) (w : Int) : KeysNodup (counterAdd c k w) := by
  unfold counterAdd
  split
  · have : (c.map (fun p => if p.1 == k then (p.1, p.2 + w) else p)).map Prod.fst
        = c.map Prod.fst := by
      rw [List.map_map]
      refine List.map_congr_left ?_
      intro p _
      simp only [Function.comp_apply]
      split <;> rfl
    unfold KeysNodup
    rw [this]
    exact h
  · next hnone =>
    unfold KeysNodup
    rw [List.map_append]
    simp only [List.map_cons, List.map_nil]
    rw [List.nodup_append]
    refine ⟨h, List.nodup_singleton k, ?_⟩
    intro a ha
    simp only [List.mem_singleton]
    intro hak
    subst hak
    apply hnone
    simp only [List.any_eq_true]
    obtain ⟨p, hp, hfst⟩ := List.mem_map.mp ha
    exact ⟨p, hp, by simp [hfst]⟩

theorem keysNodup_scoreFold (tokens : List (List Char)) (titleTokens : List (List Char))
    (cs : List (String × Int)) (h : KeysNodup cs) :
    KeysNodup (tokens.foldl
      (fun cs token =>
        match dictFind keywordToCountryList (String.mk token) with
        | some code =>
          counterAdd cs code ((if titleTokens.contains token then 3 else 1) * pySplitLen token)
        | none => cs) cs) := by
  induction tokens generalizing cs with
  | nil => exact h
  | cons t ts ih =>
    simp only [List.foldl_cons]
    cases dictFind keywordToCountryList (String.mk t) with
    | none => exact ih _ h
    | some code => exact ih _ (keysNodup_counterAdd h _ _)

theorem keysNodup_scoreCountries (tokens titleTokens : List (List Char)) :
    KeysNodup (scoreCountries tokens titleTokens).1 := by
  unfold scoreCountries
  exact keysNodup_scoreFold tokens titleTokens [] (by simp [KeysNodup])

theorem keysNodup_handleAmbiguousTerms (text : String) {cs : List (String × Int)}
    (h : KeysNodup cs) : KeysNodup (handleAmbiguousTerms text cs) := by
  unfold handleAmbiguousTerms
  split
  · split
    · have : ((cs.map (fun p => if p.1 == "GE" then (p.1, (0 : Int)) else p)).map Prod.fst)
          = cs.map Prod.fst := by
        rw [List.map_map]
        refine List.map_congr_left ?_
        intro p _
        simp only [Function.comp_apply]
        split <;> rfl
      unfold KeysNodup
      rw [this]
      exact h
    · exact h
  · exact h

theorem keysNodup_tagScores (title : String) (content : Option String) :
    KeysNodup (tagScores title content) := by
  unfold tagScores
  exact keysNodup_handleAmbiguousTerms _ (keysNodup_scoreCountries _ _)

/-- On a counter with distinct keys, lookup of a member pair's key returns
its count. -/
theorem counterGet_of_mem {c : List (String × Int)} {p : String × Int}
    (hmem : p ∈ c) (hnd : KeysNodup c) : counterGet c p.1 = p.2 := by
  induction c with
  | nil => cases hmem
  | cons q rest ih =>
    unfold KeysNodup at hnd
    simp only [List.map_cons, List.nodup_cons] at hnd
    rcases List.mem_cons.mp hmem with hq | hrest
    · subst hq
      unfold counterGet
      simp [List.find?_cons]
    · unfold counterGet
      rw [List.find?_cons]
      have hne : (q.1 == p.1) = false := by
        rw [beq_eq_false_iff_ne]
        intro hqp
        exact hnd.1 (hqp ▸ List.mem_map_of_mem Prod.fst hrest)
      rw [hne]
      exact ih hrest hnd.2

theorem insertDesc_perm (p : String × Int) (l : List (String × Int)) :
    List.Perm (insertDesc p l) (p :: l) := by
  induction l with
  | nil => rfl
  | cons q rest ih =>
    unfold insertDesc
    split
    · exact (ih.cons q).trans (List.Perm.swap p q rest)
    · rfl

theorem sortCountDesc_perm (l : List (String × Int)) : List.Perm (sortCountDesc l) l := by
  induction l with
  | nil => rfl
  | cons p rest ih =>
    exact (insertDesc_perm p (sortCountDesc rest)).trans (ih.cons p)

theorem insertDesc_pairwise (p : String × Int) {l : List (String × Int)}
    (h : l.Pairwise (fun a b => b.2 ≤ a.2)) :
    (insertDesc p l).Pairwise (fun a b => b.2 ≤ a.2) := by
  induction l with
  | nil => simp [insertDesc]
  | cons q rest ih =>
    rw [List.pairwise_cons] at h
    unfold insertDesc
    split
    · next hlt =>
      rw [List.pairwise_cons]
      refine ⟨?_, ih h.2⟩
      intro x hx
      rcases List.mem_cons.mp ((insertDesc_perm p rest).mem_iff.mp hx) with hxp | hxr
      · subst hxp
        exact le_of_lt hlt
      · exact h.1 x hxr
    · next hge =>
      rw [List.pairwise_cons]
      refine ⟨?_, List.pairwise_cons.mpr h⟩
      intro x hx
      rcases List.mem_cons.mp hx with hxq | hxr
      · subst hxq
        exact le_of_not_lt hge
      · exact le_trans (h.1 x hxr) (le_of_not_lt hge)

theorem sortCountDesc_pairwise (l : List (String × Int)) :
    (sortCountDesc l).Pairwise (fun a b => b.2 ≤ a.2) := by
  induction l with
  | nil => simp [sortCountDesc]
  | cons p rest ih => exact insertDesc_pairwise p ih

/-- `tag_article`'s country list is either empty (blank input) or the
positive-score top-3 of the post-disambiguation counter `tagScores`. -/
theorem tag_article_fst (title : String) (content : Option String) :
    (tag_article title content).1 = [] ∨
    (tag_article title content).1
      = ((mostCommon 3 (tagScores title content)).filter (fun p => 0 < p.2)).map (·.1) := by
  by_cases hg : pyStrip (tagFullText title content).data = []
  · left
    simp [tag_article, hg]
  · right
    simp [tag_article, tagScores, hg]

/-- The positive-score top-3 of a counter with distinct keys has at most 3
entries, all of strictly positive score, in score-descending order. -/
theorem mostCommon_filter_props (S : List (String × Int)) (hnd : KeysNodup S) :
    ((((mostCommon 3 S).filter (fun p => 0 < p.2)).map (·.1)).length ≤ 3) ∧
    (∀ c ∈ ((mostCommon 3 S).filter (fun p => 0 < p.2)).map (·.1), 0 < counterGet S c) ∧
    ((((mostCommon 3 S).filter (fun p => 0 < p.2)).map (·.1)).Pairwise
      (fun a b => counterGet S b ≤ counterGet S a)) := by
  have hsubl : List.Sublist ((mostCommon 3 S).filter (fun p => 0 < p.2)) (sortCountDesc S) :=
    (List.filter_sublist _).trans (List.take_sublist _ _)
  have hmemS : ∀ p ∈ (mostCommon 3 S).filter (fun p => 0 < p.2), p ∈ S := by
    intro p hp
    exact (sortCountDesc_perm S).mem_iff.mp (hsubl.subset hp)
  refine ⟨?_, ?_, ?_⟩
  · rw [List.length_map]
    calc ((mostCommon 3 S).filter (fun p => 0 < p.2)).length
        ≤ (mostCommon 3 S).length := List.length_filter_le _ _
      _ ≤ 3 := List.length_take_le _ _
  · intro c hc
    obtain ⟨p, hpL, rfl⟩ := List.mem_map.mp hc
    have hpos : 0 < p.2 := by
      have := (List.mem_filter.mp hpL).2
      simpa using this
    rw [counterGet_of_mem (hmemS p hpL) hnd]
    exact hpos
  · have hpw : ((mostCommon 3 S).filter (fun p => 0 < p.2)).Pairwise
        (fun a b => b.2 ≤ a.2) :=
      List.Pairwise.sublist hsubl (sortCountDesc_pairwise S)
    rw [List.pairwise_map]
    refine List.Pairwise.imp_of_mem ?_ hpw
    intro a b ha hb hab
    rw [counterGet_of_mem (hmemS a ha) hnd, counterGet_of_mem (hmemS b hb) hnd]
    exact hab

/-- C6, counterexample.  On title `"norway germany"` both NO and DE score 3,
and `Counter.most_common` keeps them in first-match order, so the tagger
returns `["NO", "DE"]` although the code-ascending tie-break stated by the
claim would put `"DE"` (lexicographically smaller) first. -/
theorem c6_tie_break_counterexample :
    (tag_article "norway germany" none).1 = ["NO", "DE"] ∧
    counterGet (tagScores "norway germany" none) "NO"
      = counterGet (tagScores "norway germany" none) "DE" ∧
    "DE".data < "NO".data := by
  refine ⟨rfl, rfl, by decide⟩

/-- C6, amended.  For every title and content, the tagger returns at most 3
country codes, each with strictly positive score, ordered by score
descending — ties keeping the order in which the countries first matched in
the text (counter insertion order), not the code-ascending order. -/
theorem c6_top3_positive_sorted (title : String) (content : Option String) :
    ((tag_article title content).1.length ≤ 3) ∧
    (∀ c ∈ (tag_article title content).1, 0 < counterGet (tagScores title content) c) ∧
    ((tag_article title content).1.Pairwise
      (fun a b => counterGet (tagScores title content) b
        ≤ counterGet (tagScores title content) a)) := by
  rcases tag_article_fst title content with h | h
  · rw [h]
    exact ⟨by simp, by simp, List.Pairwise.nil⟩
  · rw [h]
    exact mostCommon_filter_props _ (keysNodup_tagScores title content)

/-! ## Retriever country detection (`app/services/rag/chat_service.py`) -/

/-- The `country_map` literal of `ChatService._extract_country_from_question`
(lines 172-208), in dict insertion order. -/
def chatCountryMap : List (String × String) := [
  ("germany", "DE"), ("german", "DE"),
  ("france", "FR"), ("french", "FR"),
  ("uk", "GB"), ("united kingdom", "GB"), ("britain", "GB"), ("british", "GB"),
  ("spain", "ES"), ("spanish", "ES"),
  ("italy", "IT"), ("italian", "IT"),
  ("netherlands", "NL"), ("dutch", "NL"),
  ("poland", "PL"), ("polish", "PL"),
  ("usa", "US"), ("united states", "US"), ("america", "US"), ("american", "US"),
  ("china", "CN"), ("chinese", "CN"),
  ("india", "IN"), ("indian", "IN"),
  ("japan", "JP"), ("japanese", "JP"),
  ("australia", "AU"), ("australian", "AU"),
  ("canada", "CA"), ("canadian", "CA"),
  ("brazil", "BR"), ("brazilian", "BR"),
  ("mexico", "MX"), ("mexican", "MX"),
  ("south africa", "ZA"),
  ("saudi arabia", "SA"),
  ("uae", "AE"), ("emirates", "AE"),
  ("norway", "NO"), ("norwegian", "NO"),
  ("sweden", "SE"), ("swedish", "SE"),
  ("denmark", "DK"), ("danish", "DK"),
  ("finland", "FI"), ("finnish", "FI"),
  ("belgium", "BE"), ("belgian", "BE"),
  ("austria", "AT"), ("austrian", "AT"),
  ("switzerland", "CH"), ("swiss", "CH"),
  ("portugal", "PT"), ("portuguese", "PT"),
  ("greece", "GR"), ("greek", "GR"),
  ("turkey", "TR"), ("turkish", "TR"),
  ("south korea", "KR"), ("korea", "KR"), ("korean", "KR"),
  ("vietnam", "VN"), ("vietnamese", "VN"),
  ("indonesia", "ID"), ("indonesian", "ID"),
  ("thailand", "TH"), ("thai", "TH"),
  ("philippines", "PH"), ("philippine", "PH"),
  ("singapore", "SG"),
  ("malaysia", "MY"), ("malaysian", "MY")]

/-- `ChatService._extract_country_from_question` (lines 159-215): the first
map key that occurs as a substring of the lowercased question gives its ISO
code; `None` otherwise. -/
def extract_country_from_question (question : String) : Option String :=
  (chatCountryMap.find? (fun p => pyInS p.1 (pyLowerS question))).map (·.2)

/-- What the claim states the retriever does (spec §4.10 "run C5's keyword
index over the question; adopt all detected α2 codes"), built from the
tagger's own index and tokenizer of `country_tagger.py`: every country code
some of whose keywords occur among the question's tokens. -/
def detectCountriesViaTaggerIndex (question : String) : List String :=
  ((tagTokenize question).filterMap
    (fun token => dictFind keywordToCountryList (String.mk token))).dedup

/-- C4, counterexample.  For the question `"ukraine solar"`, the Country
Tagger's keyword index detects UA (`"ukraine"` is a UA keyword), but the
retriever's own substring map returns the single code GB (its key `"uk"` is
a substring of `"ukraine"`), so the detected country UA is not adopted —
refuting "every country whose C5 keywords appear in the question is adopted
as a filter". -/
theorem c4_ukraine_counterexample :
    "UA" ∈ detectCountriesViaTaggerIndex "ukraine solar" ∧
    extract_country_from_question "ukraine solar" = some "GB" := by
  constructor
  · decide
  · rfl

/-- C4, amended.  The retriever's in-question country detection uses its own
compiled-in name-to-code map, not the Country Tagger's keyword index: it
returns at most one code — that of the first map entry (in declaration
order) whose key is a substring of the lowercased question — and returns
`none` exactly when no key of that map occurs in the question. -/
theorem c4_extract_country_first_map_hit (question : String) :
    (extract_country_from_question question = none ↔
      ∀ p ∈ chatCountryMap, pyInS p.1 (pyLowerS question) = false) ∧
    (∀ c, extract_country_from_question question = some c →
      ∃ p ∈ chatCountryMap, p.2 = c ∧ pyInS p.1 (pyLowerS question) = true) := by
  constructor
  · unfold extract_country_from_question
    rw [Option.map_eq_none', List.find?_eq_none]
    constructor
    · intro h p hp
      have := h p hp
      simpa using this
    · intro h p hp
      simp [h p hp]
  · intro c hc
    unfold extract_country_from_question at hc
    rcases Option.map_eq_some'.mp hc with ⟨p, hfind, hsnd⟩
    have hmem := List.mem_of_find?_eq_some hfind
    have hpred := List.find?_some hfind
    exact ⟨p, hmem, hsnd, hpred⟩

/-! ## Retriever confidence grading (`chat_service.py` lines 136-157)

A retrieved chunk enters `_assess_confidence` only through its `similarity`
field, so the chunk list is embedded as the list of similarities; float
arithmetic and the literals `0.8`, `0.7` and `0.65` are modelled over `ℚ`.
The API layer (`app/api/chat.py`) constructs `ChatService` with
`low_confidence_threshold=0.65`, the constructor default. -/

/-- Python `max(c.similarity for c in chunks)` on a non-empty list (the
guard in `_assess_confidence` keeps the empty list away; 0 is a junk value
there). -/
def maxSimilarity : List ℚ → ℚ
  | [] => 0
  | s :: rest => rest.foldl max s

/-- `sum(...) / len(...)`. -/
def meanSimilarity (sims : List ℚ) : ℚ :=
  sims.sum / sims.length

/-- `ChatService._assess_confidence`: `"low"` for no chunks; `"high"` when
the maximum similarity is at least 0.8 and the mean at least 0.7;
`"medium"` when the maximum is at least the 0.65 threshold; else `"low"`. -/
def assess_confidence (sims : List ℚ) : String :=
  if sims = [] then "low"
  else if maxSimilarity sims ≥ 4/5 ∧ meanSimilarity sims ≥ 7/10 then "high"
  else if maxSimilarity sims ≥ 13/20 then "medium"
  else "low"

/-- C3, confirmed.  The grade is `"high"` exactly on a non-empty list with
maximum similarity ≥ 0.8 and mean ≥ 0.7; otherwise `"medium"` exactly when
the maximum is ≥ 0.65; otherwise `"low"`, in particular on the empty
list. -/
theorem c3_confidence_grading (sims : List ℚ) :
    (assess_confidence sims = "high" ↔
      sims ≠ [] ∧ maxSimilarity sims ≥ 4/5 ∧ meanSimilarity sims ≥ 7/10) ∧
    (assess_confidence sims = "medium" ↔
      sims ≠ [] ∧ ¬(maxSimilarity sims ≥ 4/5 ∧ meanSimilarity sims ≥ 7/10) ∧
        maxSimilarity sims ≥ 13/20) ∧
    (assess_confidence sims = "low" ↔
      sims = [] ∨ (¬(maxSimilarity sims ≥ 4/5 ∧ meanSimilarity sims ≥ 7/10) ∧
        ¬(maxSimilarity sims ≥ 13/20))) := by
  unfold assess_confidence
  split_ifs with h1 h2 h3
  · exact ⟨iff_of_false (by decide) (fun h => h.1 h1),
      iff_of_false (by decide) (fun h => h.1 h1),
      iff_of_true rfl (Or.inl h1)⟩
  · refine ⟨iff_of_true rfl ⟨h1, h2⟩, iff_of_false (by decide) (fun h => h.2.1 h2), ?_⟩
    refine iff_of_false (by decide) ?_
    rintro (he | ⟨hn, _⟩)
    · exact h1 he
    · exact hn h2
  · refine ⟨iff_of_false (by decide) (fun h => h2 h.2),
      iff_of_true rfl ⟨h1, h2, h3⟩, ?_⟩
    refine iff_of_false (by decide) ?_
    rintro (he | ⟨_, hm⟩)
    · exact h1 he
    · exact hm h3
  · exact ⟨iff_of_false (by decide) (fun h => h2 h.2),
      iff_of_false (by decide) (fun h => h3 h.2.2),
      iff_of_true rfl (Or.inr ⟨h2, h3⟩)⟩

/-! ## Article upsert (`app/services/ingest/ingestion_service.py`)

The articles table is embedded as a list of `ArticleRec` (row order is
insertion order); SQLAlchemy's in-place mutation of the selected row is a
map that rewrites the row with the entry's URL.  `fetched_at =
datetime.utcnow()` is the explicit parameter `now`.  The article's chunk
rows (a separate cascading table never touched by `upsert_article`) are
carried as the `chunks` field so the frame theorems can speak about them. -/

/-- `RSSEntry` of `rss_parser.py`. -/
structure RSSEntryRec where
  title : String
  url : String
  published_at : Option Nat
  summary : Option String
deriving Repr, DecidableEq

/-- `RSSParser.compute_content_hash`: SHA-256 (hashlib, external) is modelled
as the identity on its digest input `f"{title}|{url}|{summary or ''}"`
— determinism and equality of digests are preserved (collisions are outside
the model). -/
def compute_content_hash (title url : String) (summary : Option String) : String :=
  title ++ "|" ++ url ++ "|" ++ summary.getD ""

/-- An `articles` row (`app/db/models.py` lines 36-69) with its owned
`article_chunks` texts. -/
structure ArticleRec where
  source_id : Nat
  title : String
  url : String
  published_at : Option Nat
  fetched_at : Nat
  raw_summary : Option String
  content_text : Option String
  language : Option String
  hash : Option String
  country_codes : Option (List String)
  topic_tags : Option (List String)
  article_metadata : Option (List (String × String))
  chunks : List String
deriving Repr, DecidableEq

/-- The field assignments of the update path, `upsert_article` lines
111-115: only title, raw_summary, published_at, hash and fetched_at are
written. -/
def applyEntryUpdate (entry : RSSEntryRec) (now : Nat) (content_hash : String)
    (a : ArticleRec) : ArticleRec :=
  { a with
    title := entry.title
    raw_summary := entry.summary
    published_at := entry.published_at
    hash := some content_hash
    fetched_at := now }

/-- The `Article(...)` constructed on the insert path, lines 120-128: columns
not passed to the constructor hold their defaults (NULL). -/
def newArticleOfEntry (source_id : Nat) (entry : RSSEntryRec) (now : Nat)
    (content_hash : String) : ArticleRec :=
  { source_id := source_id
    title := entry.title
    url := entry.url
    published_at := entry.published_at
    fetched_at := now
    raw_summary := entry.summary
    content_text := none
    language := none
    hash := some content_hash
    country_codes := none
    topic_tags := none
    article_metadata := none
    chunks := [] }

/-- `IngestionService.upsert_article` (lines 77-131): returns
`(was_inserted, was_updated)` and the table after the call.  The lookup
`scalar_one_or_none` on the unique `url` column is `find?` on the row
list. -/
def upsert_article (db : List ArticleRec) (source_id : Nat) (entry : RSSEntryRec)
    (now : Nat) : (Bool × Bool) × List ArticleRec :=
  let content_hash := compute_content_hash entry.title entry.url entry.summary
  match db.find? (fun a => a.url == entry.url) with
  | some existing =>
    if existing.hash == some content_hash then ((false, false), db)
    else ((false, true),
      db.map (fun a => if a.url == entry.url then applyEntryUpdate entry now content_hash a else a))
  | none => ((true, false), db ++ [newArticleOfEntry source_id entry now content_hash])

/-- After any upsert of `entry`, the row found at `entry.url` carries the
entry's content hash. -/
theorem upsert_find?_hash (db : List ArticleRec) (source_id : Nat) (entry : RSSEntryRec)
    (now : Nat) :
    ∃ a', ((upsert_article db source_id entry now).2).find? (fun a => a.url == entry.url)
        = some a' ∧
      a'.hash = some (compute_content_hash entry.title entry.url entry.summary) := by
  unfold upsert_article
  cases hfind : db.find? (fun a => a.url == entry.url) with
  | some existing =>
    by_cases hh : existing.hash == some (compute_content_hash entry.title entry.url entry.summary)
    · refine ⟨existing, ?_, by simpa using hh⟩
      simp [hfind, hh]
    · have hmapfind :
          (db.map (fun a => if a.url == entry.url then
              applyEntryUpdate entry now
                (compute_content_hash entry.title entry.url entry.summary) a
            else a)).find? (fun a => a.url == entry.url)
          = some (applyEntryUpdate entry now
              (compute_content_hash entry.title entry.url entry.summary) existing) := by
        rw [List.find?_map]
        have hcongr : ((fun a : ArticleRec => a.url == entry.url) ∘
            (fun a => if a.url == entry.url then
              applyEntryUpdate entry now
                (compute_content_hash entry.title entry.url entry.summary) a
            else a)) = fun a : ArticleRec => a.url == entry.url := by
          funext a
          by_cases ha : (a.url == entry.url) = true
          · rw [Function.comp_apply, if_pos ha]
            rfl
          · rw [Function.comp_apply, if_neg ha]
        rw [hcongr, hfind]
        have hurl := List.find?_some hfind
        show some (if (existing.url == entry.url) = true then
            applyEntryUpdate entry now
              (compute_content_hash entry.title entry.url entry.summary) existing
          else existing) = _
        rw [if_pos hurl]
      refine ⟨applyEntryUpdate entry now
        (compute_content_hash entry.title entry.url entry.summary) existing, ?_, rfl⟩
      simp only [hfind]
      rw [if_neg (by simpa using hh)]
      exact hmapfind
  | none =>
    refine ⟨newArticleOfEntry source_id entry now
      (compute_content_hash entry.title entry.url entry.summary), ?_, rfl⟩
    simp only [hfind]
    rw [List.find?_append, hfind]
    simp [newArticleOfEntry]

/-- C5, confirmed.  Upsert returns inserted exactly on a fresh URL, updated
exactly when the stored hash differs from the incoming one, unchanged
exactly when they coincide — and re-upserting the same entry (whatever the
first call did) returns unchanged. -/
theorem c5_upsert_by_url (db : List ArticleRec) (source_id : Nat) (entry : RSSEntryRec)
    (now now' : Nat) :
    (db.find? (fun a => a.url == entry.url) = none →
      (upsert_article db source_id entry now).1 = (true, false)) ∧
    (∀ a, db.find? (fun a => a.url == entry.url) = some a →
      a.hash ≠ some (compute_content_hash entry.title entry.url entry.summary) →
      (upsert_article db source_id entry now).1 = (false, true)) ∧
    (∀ a, db.find? (fun a => a.url == entry.url) = some a →
      a.hash = some (compute_content_hash entry.title entry.url entry.summary) →
      (upsert_article db source_id entry now).1 = (false, false)) ∧
    (upsert_article (upsert_article db source_id entry now).2 source_id entry now').1
      = (false, false) := by
  refine ⟨?_, ?_, ?_, ?_⟩
  · intro hnone
    simp [upsert_article, hnone]
  · intro a hfind hne
    have hne' : (a.hash == some (compute_content_hash entry.title entry.url entry.summary))
        = false := by simpa using hne
    simp [upsert_article, hfind, hne']
  · intro a hfind heq
    have heq' : (a.hash == some (compute_content_hash entry.title entry.url entry.summary))
        = true := by simpa using heq
    simp [upsert_article, hfind, heq']
  · obtain ⟨a', hfind, hhash⟩ := upsert_find?_hash db source_id entry now
    have hh : (a'.hash == some (compute_content_hash entry.title entry.url entry.summary))
        = true := by simpa using hhash
    conv_lhs => rw [upsert_article]
    simp [hfind, hh]

/-- C10, confirmed.  On the unchanged path nothing is modified; on the
update path the table is rewritten only at rows whose URL is the entry's,
and the rewrite sets exactly title, raw_summary, published_at, hash and
fetched_at, leaving content_text, language, country_codes, topic_tags,
article_metadata, the chunk rows, url and source_id as they were. -/
theorem c10_upsert_update_frame (db : List ArticleRec) (source_id : Nat)
    (entry : RSSEntryRec) (now : Nat) :
    (∀ a, db.find? (fun a => a.url == entry.url) = some a →
      a.hash = some (compute_content_hash entry.title entry.url entry.summary) →
      (upsert_article db source_id entry now).2 = db) ∧
    (∀ a, db.find? (fun a => a.url == entry.url) = some a →
      a.hash ≠ some (compute_content_hash entry.title entry.url entry.summary) →
      (upsert_article db source_id entry now).2
        = db.map (fun b => if b.url == entry.url then
            applyEntryUpdate entry now
              (compute_content_hash entry.title entry.url entry.summary) b
          else b)) ∧
    (∀ b : ArticleRec, b.url ≠ entry.url →
      (if b.url == entry.url then
        applyEntryUpdate entry now
          (compute_content_hash entry.title entry.url entry.summary) b
      else b) = b) ∧
    (∀ b : ArticleRec,
      (applyEntryUpdate entry now
          (compute_content_hash entry.title entry.url entry.summary) b).content_text
          = b.content_text ∧
      (applyEntryUpdate entry now
          (compute_content_hash entry.title entry.url entry.summary) b).language
          = b.language ∧
      (applyEntryUpdate entry now
          (compute_content_hash entry.title entry.url entry.summary) b).country_codes
          = b.country_codes ∧
      (applyEntryUpdate entry now
          (compute_content_hash entry.title entry.url entry.summary) b).topic_tags
          = b.topic_tags ∧
      (applyEntryUpdate entry now
          (compute_content_hash entry.title entry.url entry.summary) b).article_metadata
          = b.article_metadata ∧
      (applyEntryUpdate entry now
          (compute_content_hash entry.title entry.url entry.summary) b).chunks
          = b.chunks ∧
      (applyEntryUpdate entry now
          (compute_content_hash entry.title entry.url entry.summary) b).url = b.url ∧
      (applyEntryUpdate entry now
          (compute_content_hash entry.title entry.url entry.summary) b).source_id
          = b.source_id ∧
      (applyEntryUpdate entry now
          (compute_content_hash entry.title entry.url entry.summary) b).title
          = entry.title ∧
      (applyEntryUpdate entry now
          (compute_content_hash entry.title entry.url entry.summary) b).raw_summary
          = entry.summary ∧
      (applyEntryUpdate entry now
          (compute_content_hash entry.title entry.url entry.summary) b).published_at
          = entry.published_at ∧
      (applyEntryUpdate entry now
          (compute_content_hash entry.title entry.url entry.summary) b).hash
          = some (compute_content_hash entry.title entry.url entry.summary) ∧
      (applyEntryUpdate entry now
          (compute_content_hash entry.title entry.url entry.summary) b).fetched_at
          = now) := by
  refine ⟨?_, ?_, ?_, ?_⟩
  · intro a hfind heq
    have heq' : (a.hash == some (compute_content_hash entry.title entry.url entry.summary))
        = true := by simpa using heq
    simp [upsert_article, hfind, heq']
  · intro a hfind hne
    have hne' : (a.hash == some (compute_content_hash entry.title entry.url entry.summary))
        = false := by simpa using hne
    simp [upsert_article, hfind, hne']
  · intro b hb
    rw [if_neg (by simpa using hb)]
  · intro b
    refine ⟨rfl, rfl, rfl, rfl, rfl, rfl, rfl, rfl, rfl, rfl, rfl, rfl, rfl⟩

/-! ## Pipeline chunk replacement (`app/ingest/pipeline.py` lines 266-334)

The per-article chunk replacement runs inside one SQLAlchemy session
transaction: a session is embedded as the article's committed chunk rows
plus the session's pending view of them.  `db.delete`/`db.add` edit the
pending view, `db.commit` (line 327) publishes it, `db.rollback`
(line 333) discards it.  An exception raised inside the chunking `try`
(lines 268-321) after the delete loop — e.g. a transient database error
during one of its reads or deletes, or a failure constructing the new
chunks — is caught and only logged by the handler at lines 322-325, which
is abstracted by the flag `chunkStepRaises`; an exception on the commit
itself reaches the outer handler at lines 329-334 and rolls back, abstracted
by `commitRaises`.  Chunk rows are carried by their text. -/

/-- Session state for one article's chunk rows. -/
structure ChunkSession where
  committed : List (List Char)
  pending : List (List Char)
deriving Repr, DecidableEq

/-- The delete loop, pipeline lines 269-276: every existing chunk of the
article is marked deleted in the session. -/
def sessionDeleteAllChunks (s : ChunkSession) : ChunkSession :=
  { s with pending := [] }

/-- `db.add(chunk_obj)`, line 320. -/
def sessionAddChunk (s : ChunkSession) (c : List Char) : ChunkSession :=
  { s with pending := s.pending ++ [c] }

/-- `db.commit()`, line 327. -/
def sessionCommit (s : ChunkSession) : ChunkSession :=
  { committed := s.pending, pending := s.pending }

/-- `db.rollback()`, line 333. -/
def sessionRollback (s : ChunkSession) : ChunkSession :=
  { committed := s.committed, pending := s.committed }

/-- The chunking `try` block, lines 268-321: delete all existing chunks,
then (unless the step raises, in which case the handler at line 322 swallows
the exception and leaves the session as the deletes left it) add the new
chunks of the article's content. -/
def chunkReplaceTry (s : ChunkSession) (content : List Char) (chunkStepRaises : Bool) :
    ChunkSession :=
  let s₁ := sessionDeleteAllChunks s
  if chunkStepRaises then s₁
  else (chunk_article content).foldl (fun st p => sessionAddChunk st p.1) s₁

/-- The article's chunk-persistence step, lines 266-334: nothing happens
without content (line 267); otherwise the chunking `try` runs and the
transaction is committed — or rolled back when the commit raises into the
outer handler. -/
def processArticleChunkStep (s : ChunkSession) (content : List Char)
    (chunkStepRaises commitRaises : Bool) : ChunkSession :=
  if content = [] then s
  else
    let s₂ := chunkReplaceTry s content chunkStepRaises
    if commitRaises then sessionRollback s₂ else sessionCommit s₂

theorem chunkFoldPending (l : List (List Char × Nat)) (st : ChunkSession) :
    (l.foldl (fun st p => sessionAddChunk st p.1) st).committed = st.committed ∧
    (l.foldl (fun st p => sessionAddChunk st p.1) st).pending
      = st.pending ++ l.map (·.1) := by
  induction l generalizing st with
  | nil => simp
  | cons p rest ih =>
    simp only [List.foldl_cons, List.map_cons]
    refine ⟨(ih _).1, ?_⟩
    rw [(ih _).2]
    simp [sessionAddChunk]

/-- The chunking `try` edits only the pending view, never the committed
rows. -/
theorem chunkReplaceTry_committed (s : ChunkSession) (content : List Char) (b : Bool) :
    (chunkReplaceTry s content b).committed = s.committed := by
  cases b with
  | true => rfl
  | false =>
    simp only [chunkReplaceTry, Bool.false_eq_true, if_false]
    exact (chunkFoldPending _ _).1

/-- C2, counterexample.  An article with one committed chunk `"o"` is
re-chunked from non-empty content `"x"`; the chunking step raises after the
deletes, the exception is swallowed at line 322, and the commit at line 327
still runs — publishing the deletion with no inserts, so the stored chunk
set ends empty instead of the prior `["o"]`, refuting "if any step of
re-chunking fails, the article's stored chunk set is exactly what it was
before". -/
theorem c2_swallowed_failure_counterexample :
    (processArticleChunkStep ⟨[['o']], [['o']]⟩ ['x'] true false).committed = [] ∧
    (⟨[['o']], [['o']]⟩ : ChunkSession).committed = [['o']] ∧
    (['x'] : List Char) ≠ [] := by
  exact ⟨rfl, rfl, by decide⟩

/-- C2, amended.  Replacement is transactional, so a reader never observes a
mix: the committed chunk set is always the old one, the full new one, or —
in the swallowed-failure case — empty.  A commit-time failure rolls back to
the old set and a clean run publishes exactly the new chunks; but a failure
inside the chunking step itself is logged and committed, leaving the
article with no chunks rather than its old ones. -/
theorem c2_chunk_replacement_transactional (s : ChunkSession) (content : List Char)
    (chunkStepRaises commitRaises : Bool) :
    ((processArticleChunkStep s content chunkStepRaises commitRaises).committed
        = s.committed ∨
      (processArticleChunkStep s content chunkStepRaises commitRaises).committed = [] ∨
      (processArticleChunkStep s content chunkStepRaises commitRaises).committed
        = (chunk_article content).map (·.1)) ∧
    (commitRaises = true →
      (processArticleChunkStep s content chunkStepRaises commitRaises).committed
        = s.committed) ∧
    (content ≠ [] → chunkStepRaises = false → commitRaises = false →
      (processArticleChunkStep s content chunkStepRaises commitRaises).committed
        = (chunk_article content).map (·.1)) ∧
    (content ≠ [] → chunkStepRaises = true → commitRaises = false →
      (processArticleChunkStep s content chunkStepRaises commitRaises).committed = []) := by
  refine ⟨?_, ?_, ?_, ?_⟩
  · by_cases hc : content = []
    · left
      simp [processArticleChunkStep, hc]
    · cases commitRaises with
      | true =>
        left
        simp only [processArticleChunkStep, if_neg hc, if_true, sessionRollback]
        exact chunkReplaceTry_committed s content chunkStepRaises
      | false =>
        cases chunkStepRaises with
        | true =>
          right; left
          simp [processArticleChunkStep, chunkReplaceTry, hc, sessionCommit,
            sessionDeleteAllChunks]
        | false =>
          right; right
          simp only [processArticleChunkStep, chunkReplaceTry, if_neg hc,
            Bool.false_eq_true, if_false, sessionCommit]
          rw [(chunkFoldPending _ _).2]
          simp [sessionDeleteAllChunks]
  · intro hcr
    subst hcr
    by_cases hc : content = []
    · simp [processArticleChunkStep, hc]
    · simp only [processArticleChunkStep, if_neg hc, if_true, sessionRollback]
      exact chunkReplaceTry_committed s content chunkStepRaises
  · intro hc hcs hcr
    subst hcs; subst hcr
    simp only [processArticleChunkStep, chunkReplaceTry, if_neg hc,
      Bool.false_eq_true, if_false, sessionCommit]
    rw [(chunkFoldPending _ _).2]
    simp [sessionDeleteAllChunks]
  · intro hc hcs hcr
    subst hcs; subst hcr
    simp [processArticleChunkStep, chunkReplaceTry, if_neg hc, sessionCommit,
      sessionDeleteAllChunks]


/-! ## Feed fetcher retry (`app/services/ingest/fetcher.py`)

One HTTP attempt (the `httpx` GET plus `raise_for_status`) is external I/O;
its outcome per attempt number is the input `outcome : Nat → HttpxOutcome`.
The `@retry` decorator (tenacity) re-runs the decorated body while the
raised exception satisfies `retry_if_exception_type((httpx.HTTPError,
httpx.TimeoutException))`, up to `stop_after_attempt(3)`; a non-matching
exception propagates at once. -/

/-- What one underlying HTTP attempt can do. -/
inductive HttpxOutcome where
  | success (body : String)
  | statusError (code : Nat)
  | timeoutExc
  | otherHttpError
  | otherExc
deriving Repr, DecidableEq

/-- The exceptions `fetch_feed` can raise.  `httpStatusError`, `timeoutExc`
and `httpError` stand for the `httpx` classes (`HTTPStatusError` is a
subclass of `HTTPError`); `feedFetchError` is the module's own exception,
carrying its cause. -/
inductive FetchExc where
  | httpStatusError (code : Nat)
  | timeoutException
  | httpError
  | feedFetchError (cause : HttpxOutcome)
deriving Repr, DecidableEq

/-- `retry_if_exception_type((httpx.HTTPError, httpx.TimeoutException))`:
`FeedFetchError` extends `Exception`, not the `httpx` classes. -/
def isRetryableExc : FetchExc → Bool
  | .httpStatusError _ => true
  | .timeoutException => true
  | .httpError => true
  | .feedFetchError _ => false

/-- The body of `fetch_feed` (lines 61-78): every `httpx` failure of the GET
is caught and re-raised as `FeedFetchError` (lines 71-78), so the body never
lets an `httpx` exception escape. -/
def fetchFeedBody (o : HttpxOutcome) : Except FetchExc String :=
  match o with
  | .success body => .ok body
  | .statusError code => .error (.feedFetchError (.statusError code))
  | .timeoutExc => .error (.feedFetchError .timeoutExc)
  | .otherHttpError => .error (.feedFetchError .otherHttpError)
  | .otherExc => .error (.feedFetchError .otherExc)

/-- The tenacity retry loop: run attempt `attemptIdx`; on success stop; on a
retryable exception with attempts remaining, wait (the exponential backoff
is time, invisible here) and retry; otherwise raise.  Returns the number of
attempts made with the final result. -/
def tenacityLoop (retryOn : FetchExc → Bool) (attempt : Nat → Except FetchExc String) :
    Nat → Nat → Nat × Except FetchExc String
  | attemptIdx, 0 => (attemptIdx, attempt attemptIdx)
  | attemptIdx, 1 => (attemptIdx, attempt attemptIdx)
  | attemptIdx, n + 2 =>
    match attempt attemptIdx with
    | .ok v => (attemptIdx, .ok v)
    | .error e =>
      if retryOn e then tenacityLoop retryOn attempt (attemptIdx + 1) (n + 1)
      else (attemptIdx, .error e)

/-- `RSSFetcher.fetch_feed` (lines 43-78): the decorated body under
`stop_after_attempt(3)`, starting at attempt 1. -/
def fetch_feed (outcome : Nat → HttpxOutcome) : Nat × Except FetchExc String :=
  tenacityLoop isRetryableExc (fun i => fetchFeedBody (outcome i)) 1 3

/-- C7, the code at the claim's failing input.  A URL whose GET times out on
every attempt is attempted exactly once, and `fetch_feed` raises
`FeedFetchError` immediately: the body converts the timeout into
`FeedFetchError` before the retry predicate sees it, so the configured
3-attempt backoff never fires.  The claim (and the decorator plus the
function's own docstring) call for 3 attempts. -/
theorem c7_transient_failure_not_retried :
    (fetch_feed (fun _ => HttpxOutcome.timeoutExc)).1 = 1 ∧
    (fetch_feed (fun _ => HttpxOutcome.timeoutExc)).2
      = .error (.feedFetchError .timeoutExc) ∧
    (∀ outcome : Nat → HttpxOutcome, (fetch_feed outcome).1 = 1) := by
  refine ⟨rfl, rfl, ?_⟩
  intro outcome
  unfold fetch_feed tenacityLoop
  cases outcome 1 <;> rfl

/-! ## Feed parsing (`app/services/ingest/rss_parser.py`)

`feedparser.parse` is an external library: its result is the input of the
embedding, a `bozo` flag (the document was malformed) and a list of
recognized entries.  Each entry's fields are what `entry.get` / `getattr`
would yield: `none` for an absent key.  For the date fields, the entry
carries the datetime that the corresponding feedparser struct field (via
`datetime(*time_struct[:6])`) or RFC-2822 string field (via
`parsedate_to_datetime`) produces when present, truthy and parseable —
`none` covers absent, falsy and unparseable alike, which is exactly the
`try/except`-guarded chain of `parse_published_date`. -/

/-- A feedparser entry at the boundary described above. -/
structure FPEntry where
  title : Option String
  link : Option String
  summary : Option String
  description : Option String
  published_parsed : Option Nat
  updated_parsed : Option Nat
  created_parsed : Option Nat
  published_str : Option Nat
  pubDate_str : Option Nat
  updated_str : Option Nat
deriving Repr, DecidableEq

/-- The result of `feedparser.parse`. -/
structure ParsedFeed where
  bozo : Bool
  entries : List FPEntry
deriving Repr, DecidableEq

/-- `RSSParser.parse_published_date` (lines 43-71): struct fields
`published_parsed`, `updated_parsed`, `created_parsed` in order, then the
string fields `published`, `pubDate`, `updated`. -/
def parse_published_date (e : FPEntry) : Option Nat :=
  e.published_parsed <|> e.updated_parsed <|> e.created_parsed <|>
    e.published_str <|> e.pubDate_str <|> e.updated_str

/-- The per-entry body of `parse_feed` (lines 92-109): entries whose
stripped title or link is empty are skipped; the summary falls back to the
description and an empty strip becomes `None` (`summary or None`). -/
def entryToRss (e : FPEntry) : Option RSSEntryRec :=
  let title := pyStripS (e.title.getD "")
  let url := pyStripS (e.link.getD "")
  if title = "" ∨ url = "" then none
  else
    let summary := pyStripS (e.summary.getD (e.description.getD ""))
    some { title := title, url := url, published_at := parse_published_date e,
           summary := if summary = "" then none else some summary }

/-- `RSSParser.parse_feed` (lines 73-115): raises (`ValueError`, the spec's
`ParseError`) only when the feed is malformed (`bozo`) AND has no recognized
entries; otherwise the well-formed entries are collected — nothing in the
per-entry loop raises in this model, matching its `try/except ... continue`
guard. -/
def parse_feed (f : ParsedFeed) : Except String (List RSSEntryRec) :=
  if f.bozo ∧ f.entries = [] then .error "Failed to parse RSS feed"
  else .ok (f.entries.filterMap entryToRss)

/-- C8, counterexample.  A syntactically well-formed feed (`bozo = false`)
whose only entry has no title yields no parseable entries at all, yet
`parse_feed` returns the empty list without raising — refuting "raises
ParseError exactly when the feed yields no parseable entries". -/
theorem c8_empty_result_no_raise_counterexample :
    parse_feed ⟨false, [⟨none, some "http://x", none, none, none, none, none,
      none, none, none⟩]⟩
      = .ok [] ∧
    (⟨false, [⟨none, some "http://x", none, none, none, none, none,
      none, none, none⟩]⟩ : ParsedFeed).entries.filterMap entryToRss = [] := by
  exact ⟨rfl, rfl⟩

/-- C8, amended.  Every returned entry has a non-empty title and URL
(malformed entries are skipped); a feed with one malformed and one valid
entry returns exactly the valid one without raising; and `parse_feed`
raises exactly when the feed is flagged malformed and has no recognized
entries — a well-formed feed all of whose entries are malformed returns the
empty list without raising. -/
theorem c8_parse_feed_skip_and_raise :
    (∀ f l, parse_feed f = .ok l → ∀ r ∈ l, r.title ≠ "" ∧ r.url ≠ "") ∧
    (∀ (bozo : Bool) (e₁ e₂ : FPEntry) (v : RSSEntryRec), entryToRss e₁ = none →
      entryToRss e₂ = some v → parse_feed ⟨bozo, [e₁, e₂]⟩ = .ok [v]) ∧
    (∀ f : ParsedFeed, (∃ msg, parse_feed f = .error msg) ↔
      f.bozo = true ∧ f.entries = []) := by
  refine ⟨?_, ?_, ?_⟩
  · intro f l hok r hr
    have hl : l = f.entries.filterMap entryToRss := by
      unfold parse_feed at hok
      split at hok
      · cases hok
      · exact (Except.ok.inj hok).symm
    subst hl
    obtain ⟨e, _, he⟩ := List.mem_filterMap.mp hr
    simp only [entryToRss] at he
    split at he
    · cases he
    · next hcond =>
      rw [not_or] at hcond
      cases he
      exact ⟨hcond.1, hcond.2⟩
  · intro bozo e₁ e₂ v h₁ h₂
    unfold parse_feed
    rw [if_neg (by simp)]
    simp [h₁, h₂]
  · intro f
    constructor
    · rintro ⟨msg, hmsg⟩
      unfold parse_feed at hmsg
      split at hmsg
      · next hcond => exact ⟨hcond.1, hcond.2⟩
      · cases hmsg
    · rintro ⟨hb, he⟩
      refine ⟨"Failed to parse RSS feed", ?_⟩
      unfold parse_feed
      rw [if_pos ⟨hb, he⟩]

/-! ## Content extraction (`app/services/ingest/content_extractor.py`)

`readability-lxml` and `BeautifulSoup` are external HTML parsers; a fetched
page is embedded by what they expose to this module's code:

* `readabilityLines` — the lines (split on the `get_text(separator='\n')`
  newlines) of the readability summary's text after the script/style strip
  (`extract_with_readability` lines 141-152);
* `paragraphs` — `get_text(strip=True)` of each `<p>` after removing
  script, style, nav, footer, header and aside elements (lines 180-195);
* the `og:image` / `twitter:image` / `article:image` meta contents (absent
  key or tag is `none`) and the in-body `<img>` tags with their `src` /
  `data-src` attributes.

`langdetect.detect` is external and may fail: it enters `extract_article`
as the function argument `det`, returning `none` where the library
raises. -/

/-- An in-body `<img>` tag. -/
structure ImgTag where
  src : Option String
  data_src : Option String
deriving Repr, DecidableEq

/-- A fetched HTML document at the parser boundary described above. -/
structure HtmlDoc where
  readabilityLines : List String
  paragraphs : List String
  og_image : Option String
  twitter_image : Option String
  article_image : Option String
  imgs : List ImgTag
deriving Repr, DecidableEq

/-- `ContentExtractor.extract_with_readability` (lines 130-167): lines are
stripped, empty ones dropped, the rest joined by blank lines; accepted only
above the 100-character floor. -/
def extract_with_readability (h : HtmlDoc) : Option String :=
  let lines := (h.readabilityLines.map pyStripS).filter (fun l => l ≠ "")
  let text := String.intercalate "\n\n" lines
  if 100 < text.length then some text else none

/-- `ContentExtractor.extract_with_beautifulsoup` (lines 169-213): paragraph
texts longer than 20 characters joined by blank lines, under the same
100-character floor; `None` when there are no paragraphs or no long
ones. -/
def extract_with_beautifulsoup (h : HtmlDoc) : Option String :=
  if h.paragraphs = [] then none
  else
    let texts := h.paragraphs.filter (fun t => 20 < t.length)
    if texts = [] then none
    else
      let content := String.intercalate "\n\n" texts
      if 100 < content.length then some content else none

/-- Python `a or b` on `str | None` values (`img.get('src') or
img.get('data-src')`): the first truthy operand. -/
def pyOrStr (a b : Option String) : Option String :=
  match a with
  | some s => if s = "" then b else some s
  | none => b

/-- A meta tag's content when present and truthy (`og_image and
og_image.get('content')`). -/
def metaContent (m : Option String) : Option String :=
  match m with
  | some c => if c = "" then none else some c
  | none => none

/-- The skip words of the `<img>` fallback. -/
def imgSkipWords : List String := ["logo", "icon", "avatar", "ad"]

/-- The `for img in images` fallback loop (lines 245-251): the first image
whose `src`-or-`data-src` is truthy, free of skip words (checked on the
lowercased URL) and absolute is returned; others are passed over. -/
def firstContentImg : List ImgTag → Option String
  | [] => none
  | img :: rest =>
    match pyOrStr img.src img.data_src with
    | some src =>
      if ¬ (imgSkipWords.any (fun w => pyInS w (pyLowerS src)))
          ∧ (("http://".data).isPrefixOf src.data ∨ ("https://".data).isPrefixOf src.data) then
        some src
      else firstContentImg rest
    | none => firstContentImg rest

/-- `ContentExtractor.extract_image_url` (lines 215-257): `og:image`, then
`twitter:image`, then `article:image`, then the first suitable in-body
image. -/
def extract_image_url (h : HtmlDoc) : Option String :=
  metaContent h.og_image <|> metaContent h.twitter_image <|>
    metaContent h.article_image <|> firstContentImg h.imgs

/-- `ContentExtractor.extract_content` (lines 259-279): readability first,
BeautifulSoup paragraphs as the fallback. -/
def extract_content (h : HtmlDoc) : Option String :=
  extract_with_readability h <|> extract_with_beautifulsoup h

/-- `ContentExtractor.detect_language` (lines 281-304): `None` below 20
characters, else `langdetect.detect` on the first 1000 characters —
`det` yields `none` where the library raises. -/
def detect_language (det : String → Option String) (text : String) : Option String :=
  if text = "" ∨ text.length < 20 then none
  else det (text.take 1000)

/-- `ContentExtractor.extract_article` (lines 306-333) after a successful
fetch: content, then the image URL from the same HTML, then the language of
the content when there is one. -/
def extract_article (det : String → Option String) (h : HtmlDoc) :
    Option String × Option String × Option String :=
  let content := extract_content h
  let image_url := extract_image_url h
  let language := match content with
    | some c => detect_language det c
    | none => none
  (content, language, image_url)

/-- C9, counterexample.  A page with no extractable text (no readability
lines, no paragraphs) but an `og:image` meta tag: `extract_article` returns
null text and null language, yet the image URL is extracted independently
of the text and is NOT null — refuting "text, language, and image_url all
absent". -/
theorem c9_image_not_null_counterexample :
    extract_article (fun _ => none) ⟨[], [], some "https://ex.com/pic.jpg", none, none, []⟩
      = (none, none, some "https://ex.com/pic.jpg") ∧
    extract_content ⟨[], [], some "https://ex.com/pic.jpg", none, none, []⟩ = none := by
  exact ⟨rfl, rfl⟩

/-- C9, amended.  When both extraction paths fail the floor, the returned
text and language are null and nothing is raised, but the image URL is
whatever `extract_image_url` finds in the same HTML — it is null only when
the page also has no usable meta or in-body image. -/
theorem c9_no_text_null_fields (det : String → Option String) (h : HtmlDoc)
    (hr : extract_with_readability h = none) (hb : extract_with_beautifulsoup h = none) :
    extract_article det h = (none, none, extract_image_url h) := by
  unfold extract_article extract_content
  rw [hr, hb]
  rfl

/-- Witness for `c9_no_text_null_fields` at a concrete page. -/
theorem c9_no_text_null_fields_witness :
    extract_with_readability ⟨["short"], [], none, none, none, []⟩ = none ∧
    extract_with_beautifulsoup ⟨["short"], [], none, none, none, []⟩ = none ∧
    extract_article (fun _ => some "en") ⟨["short"], [], none, none, none, []⟩
      = (none, none, extract_image_url ⟨["short"], [], none, none, none, []⟩) :=
  ⟨rfl, rfl, c9_no_text_null_fields (fun _ => some "en") _ rfl rfl⟩
